import Mathlib

/-!
Verification of the time-bounded cache and lookup/aggregation layer of the
`openbymadata` Go library (package `openbymadata`, `internal/cache`,
`internal/helpers`).

Modelling conventions:
* Go `string` values that the modelled algorithms inspect byte-by-byte
  (security symbols, search text) are modelled as `GoStr := List Nat`,
  a list of byte values; Go string equality is byte-list equality.
  Go strings used purely as literal map keys or error codes are modelled
  as Lean `String`.
* Go `time.Time` wall-clock instants and `time.Duration` values are both
  modelled as `Int` nanosecond counts; `time.Since(ts)` at instant `now`
  is `now - ts`.  Every cache operation takes the current instant `now`
  explicitly (in Go it is read implicitly via `time.Now()`).
* Go `float64` fields are never read or computed with by any cache or
  lookup code; they are carried opaquely as `Float64`, a 64-bit pattern.
* Go `int64` fields are likewise only carried; they are modelled as `Int`.
* Mutation of the `Cache` is modelled by explicit state passing; the
  `sync.RWMutex` serialises operations in Go, so the sequential state
  semantics is the faithful model of each linearised history.
* A fallible Go call returning `(T, error)` is modelled as `Except ε T`.
-/

namespace OpenBYMA

/-- Go byte-string: the list of byte values of the string. -/
abbrev GoStr : Type := List Nat

/-- Opaque carrier for a Go `float64` value: its 64-bit pattern.
No modelled operation reads or computes with these fields. -/
structure Float64 where
  bits : Nat
deriving DecidableEq, Inhabited

/-- Opaque carrier for a Go `time.Time` entity field (e.g. `DateTime`):
nanoseconds since epoch.  Entity timestamp fields are only carried. -/
structure GoTime where
  ns : Int
deriving DecidableEq, Inhabited

/-- Embedding of `api.Security` (internal/api/types.go).  Field `Open` is
renamed `openPrice` because `open` is a Lean keyword. -/
structure Security where
  symbol : GoStr
  settlement : GoStr
  bidSize : Int
  bid : Float64
  ask : Float64
  askSize : Int
  last : Float64
  close : Float64
  change : Float64
  openPrice : Float64
  high : Float64
  low : Float64
  previousClose : Float64
  turnover : Float64
  volume : Int
  operations : Int
  dateTime : GoTime
  group : GoStr
deriving DecidableEq, Inhabited

/-- Embedding of `api.Bond`: all `Security` fields plus `Expiration`. -/
structure Bond where
  symbol : GoStr
  settlement : GoStr
  bidSize : Int
  bid : Float64
  ask : Float64
  askSize : Int
  last : Float64
  close : Float64
  change : Float64
  openPrice : Float64
  high : Float64
  low : Float64
  previousClose : Float64
  turnover : Float64
  volume : Int
  operations : Int
  dateTime : GoTime
  group : GoStr
  expiration : GoTime
deriving DecidableEq, Inhabited

/-- Embedding of `api.Option` (renamed: `Option` is Lean's option type). -/
structure OptionContract where
  symbol : GoStr
  bidSize : Int
  bid : Float64
  ask : Float64
  askSize : Int
  last : Float64
  close : Float64
  change : Float64
  openPrice : Float64
  high : Float64
  low : Float64
  previousClose : Float64
  turnover : Float64
  volume : Int
  operations : Int
  dateTime : GoTime
  underlyingAsset : GoStr
  expiration : GoTime
deriving DecidableEq, Inhabited

/-- Embedding of `api.Future`. -/
structure Future where
  symbol : GoStr
  bidSize : Int
  bid : Float64
  ask : Float64
  askSize : Int
  last : Float64
  close : Float64
  change : Float64
  openPrice : Float64
  high : Float64
  low : Float64
  previousClose : Float64
  turnover : Float64
  volume : Int
  operations : Int
  dateTime : GoTime
  expiration : GoTime
  openInterest : Int
deriving DecidableEq, Inhabited

/-- Embedding of `api.Index` (renamed to avoid clashing with index types). -/
structure MarketIndex where
  description : GoStr
  symbol : GoStr
  last : Float64
  change : Float64
  high : Float64
  low : Float64
  previousClose : Float64
deriving DecidableEq, Inhabited

/-- Embedding of `api.MarketSummary`. -/
structure MarketSummary where
  symbol : GoStr
  assetType : GoStr
  parentKey : GoStr
  totalNegotiated : Float64
  volume : Int
  operations : Int
deriving DecidableEq, Inhabited

/-- Embedding of `api.News`. -/
structure News where
  fecha : GoTime
  titulo : GoStr
  descripcion : GoStr
  descarga : GoStr
deriving DecidableEq, Inhabited

/-- Embedding of `api.IncomeStatement`. -/
structure IncomeStatement where
  symbol : GoStr
  periodo : GoStr
  tipoPeriodo : GoStr
  fechaCierre : GoStr
  balancesArchivo : GoStr
deriving DecidableEq, Inhabited

/-!
## Cache (src/internal/cache/cache.go)
-/

/-- A cached slot, `(data, timestamp)`.  The Go source declares eight
structurally identical structs (`cachedSecurities`, `cachedBonds`, ...,
`cachedIncomeStatements`); `Slot` is their common shape, one per payload
type. -/
structure Slot (α : Type) where
  data : List α
  timestamp : Int
deriving DecidableEq, Inhabited

/-- Embedding of `cache.Cache`.  One optional slot per bulk category and an
association list for the per-ticker income-statement map (`nil` pointer in
Go is `none`; `map[string]*cachedIncomeStatements` is an association list
with unique keys).  The `sync.RWMutex` is not part of the sequential
state. -/
structure Cache where
  duration : Int
  bluechips : Option (Slot Security)
  cedears : Option (Slot Security)
  galpones : Option (Slot Security)
  bonds : Option (Slot Bond)
  shortBonds : Option (Slot Bond)
  corporateBonds : Option (Slot Bond)
  options : Option (Slot OptionContract)
  futures : Option (Slot Future)
  indices : Option (Slot MarketIndex)
  marketSummary : Option (Slot MarketSummary)
  news : Option (Slot News)
  incomeStatements : List (GoStr × Slot IncomeStatement)

/-- Embedding of `cache.New()`: a 5-minute cache (`5 * time.Minute` in
nanoseconds) with no slots. -/
def Cache.New : Cache where
  duration := 5 * 60 * 1000000000
  bluechips := none
  cedears := none
  galpones := none
  bonds := none
  shortBonds := none
  corporateBonds := none
  options := none
  futures := none
  indices := none
  marketSummary := none
  news := none
  incomeStatements := []

/-- Embedding of `Cache.isFresh`: `time.Since(timestamp) < c.duration`,
read at instant `now`. -/
def Cache.isFresh (c : Cache) (now timestamp : Int) : Bool :=
  now - timestamp < c.duration

/-- Embedding of `Cache.GetBluechips`: the slot data when a slot exists and
is fresh, otherwise `none` (Go returns `(nil, false)`). -/
def Cache.GetBluechips (c : Cache) (now : Int) : Option (List Security) :=
  match c.bluechips with
  | some s => if c.isFresh now s.timestamp then some s.data else none
  | none => none

/-- Embedding of `Cache.SetBluechips` at instant `now` (Go stamps the slot
with `time.Now()`). -/
def Cache.SetBluechips (c : Cache) (data : List Security) (now : Int) : Cache :=
  { c with bluechips := some { data := data, timestamp := now } }

/-- Embedding of `Cache.GetCedears`. -/
def Cache.GetCedears (c : Cache) (now : Int) : Option (List Security) :=
  match c.cedears with
  | some s => if c.isFresh now s.timestamp then some s.data else none
  | none => none

/-- Embedding of `Cache.SetCedears`. -/
def Cache.SetCedears (c : Cache) (data : List Security) (now : Int) : Cache :=
  { c with cedears := some { data := data, timestamp := now } }

/-- Embedding of `Cache.GetGalpones`. -/
def Cache.GetGalpones (c : Cache) (now : Int) : Option (List Security) :=
  match c.galpones with
  | some s => if c.isFresh now s.timestamp then some s.data else none
  | none => none

/-- Embedding of `Cache.SetGalpones`. -/
def Cache.SetGalpones (c : Cache) (data : List Security) (now : Int) : Cache :=
  { c with galpones := some { data := data, timestamp := now } }

/-- Embedding of `Cache.GetBonds`. -/
def Cache.GetBonds (c : Cache) (now : Int) : Option (List Bond) :=
  match c.bonds with
  | some s => if c.isFresh now s.timestamp then some s.data else none
  | none => none

/-- Embedding of `Cache.SetBonds`. -/
def Cache.SetBonds (c : Cache) (data : List Bond) (now : Int) : Cache :=
  { c with bonds := some { data := data, timestamp := now } }

/-- Embedding of `Cache.GetShortTermBonds`. -/
def Cache.GetShortTermBonds (c : Cache) (now : Int) : Option (List Bond) :=
  match c.shortBonds with
  | some s => if c.isFresh now s.timestamp then some s.data else none
  | none => none

/-- Embedding of `Cache.SetShortTermBonds`. -/
def Cache.SetShortTermBonds (c : Cache) (data : List Bond) (now : Int) : Cache :=
  { c with shortBonds := some { data := data, timestamp := now } }

/-- Embedding of `Cache.GetCorporateBonds`. -/
def Cache.GetCorporateBonds (c : Cache) (now : Int) : Option (List Bond) :=
  match c.corporateBonds with
  | some s => if c.isFresh now s.timestamp then some s.data else none
  | none => none

/-- Embedding of `Cache.SetCorporateBonds`. -/
def Cache.SetCorporateBonds (c : Cache) (data : List Bond) (now : Int) : Cache :=
  { c with corporateBonds := some { data := data, timestamp := now } }

/-- Embedding of `Cache.GetOptions`. -/
def Cache.GetOptions (c : Cache) (now : Int) : Option (List OptionContract) :=
  match c.options with
  | some s => if c.isFresh now s.timestamp then some s.data else none
  | none => none

/-- Embedding of `Cache.SetOptions`. -/
def Cache.SetOptions (c : Cache) (data : List OptionContract) (now : Int) : Cache :=
  { c with options := some { data := data, timestamp := now } }

/-- Embedding of `Cache.GetFutures`. -/
def Cache.GetFutures (c : Cache) (now : Int) : Option (List Future) :=
  match c.futures with
  | some s => if c.isFresh now s.timestamp then some s.data else none
  | none => none

/-- Embedding of `Cache.SetFutures`. -/
def Cache.SetFutures (c : Cache) (data : List Future) (now : Int) : Cache :=
  { c with futures := some { data := data, timestamp := now } }

/-- Embedding of `Cache.GetIndices`. -/
def Cache.GetIndices (c : Cache) (now : Int) : Option (List MarketIndex) :=
  match c.indices with
  | some s => if c.isFresh now s.timestamp then some s.data else none
  | none => none

/-- Embedding of `Cache.SetIndices`. -/
def Cache.SetIndices (c : Cache) (data : List MarketIndex) (now : Int) : Cache :=
  { c with indices := some { data := data, timestamp := now } }

/-- Embedding of `Cache.GetMarketSummary`. -/
def Cache.GetMarketSummary (c : Cache) (now : Int) : Option (List MarketSummary) :=
  match c.marketSummary with
  | some s => if c.isFresh now s.timestamp then some s.data else none
  | none => none

/-- Embedding of `Cache.SetMarketSummary`. -/
def Cache.SetMarketSummary (c : Cache) (data : List MarketSummary) (now : Int) : Cache :=
  { c with marketSummary := some { data := data, timestamp := now } }

/-- Embedding of `Cache.GetNews`. -/
def Cache.GetNews (c : Cache) (now : Int) : Option (List News) :=
  match c.news with
  | some s => if c.isFresh now s.timestamp then some s.data else none
  | none => none

/-- Embedding of `Cache.SetNews`. -/
def Cache.SetNews (c : Cache) (data : List News) (now : Int) : Cache :=
  { c with news := some { data := data, timestamp := now } }

/-- Embedding of `Cache.GetIncomeStatement`: `if cached, exists :=
c.incomeStatements[ticker]; exists && c.isFresh(cached.timestamp)`. -/
def Cache.GetIncomeStatement (c : Cache) (ticker : GoStr) (now : Int) :
    Option (List IncomeStatement) :=
  match c.incomeStatements.lookup ticker with
  | some s => if c.isFresh now s.timestamp then some s.data else none
  | none => none

/-- Embedding of `Cache.SetIncomeStatement`: Go map assignment overwrites
the entry for `ticker`. -/
def Cache.SetIncomeStatement (c : Cache) (ticker : GoStr)
    (data : List IncomeStatement) (now : Int) : Cache :=
  { c with incomeStatements :=
      (ticker, { data := data, timestamp := now }) ::
        c.incomeStatements.filter (fun p => !(p.1 == ticker)) }

/-- One entry of the `Cache.GetInfo` result: the Go code stores
`{count, timestamp, age, fresh}` under each category key. -/
structure CacheEntryInfo where
  count : Nat
  timestamp : Int
  age : Int
  fresh : Bool
deriving DecidableEq, Inhabited

/-- Embedding of `Cache.GetInfo`: the Go method builds a map with one entry
per non-nil slot, but only for `bluechips`, `cedears` and `galpones`.
The Go `map[string]interface{}` is modelled as an association list (keys
are pairwise distinct). -/
def Cache.GetInfo (c : Cache) (now : Int) : List (String × CacheEntryInfo) :=
  (match c.bluechips with
   | some s => [("bluechips",
       { count := s.data.length, timestamp := s.timestamp,
         age := now - s.timestamp, fresh := c.isFresh now s.timestamp })]
   | none => []) ++
  (match c.cedears with
   | some s => [("cedears",
       { count := s.data.length, timestamp := s.timestamp,
         age := now - s.timestamp, fresh := c.isFresh now s.timestamp })]
   | none => []) ++
  (match c.galpones with
   | some s => [("galpones",
       { count := s.data.length, timestamp := s.timestamp,
         age := now - s.timestamp, fresh := c.isFresh now s.timestamp })]
   | none => [])

/-- Embedding of `Cache.Clear`: every slot pointer is set to `nil` and the
income-statement map is replaced by a fresh empty map. -/
def Cache.Clear (c : Cache) : Cache :=
  { c with
    bluechips := none
    cedears := none
    galpones := none
    bonds := none
    shortBonds := none
    corporateBonds := none
    options := none
    futures := none
    indices := none
    marketSummary := none
    news := none
    incomeStatements := [] }

/-!
## Bulk-collection categories

The Go cache has one named field, getter and setter per bulk category.
`CacheCategory` enumerates the eleven categories so that per-category
statements can be made uniformly; `Cache.getCat` / `Cache.setCat` simply
dispatch to the per-category methods modelled above.
-/

/-- The eleven bulk-collection categories of the cache. -/
inductive CacheCategory where
  | bluechips
  | cedears
  | galpones
  | bonds
  | shortBonds
  | corporateBonds
  | options
  | futures
  | indices
  | marketSummary
  | news
deriving DecidableEq, Inhabited

/-- Entity type stored by each category's slot. -/
def EntityOf : CacheCategory → Type
  | .bluechips => Security
  | .cedears => Security
  | .galpones => Security
  | .bonds => Bond
  | .shortBonds => Bond
  | .corporateBonds => Bond
  | .options => OptionContract
  | .futures => Future
  | .indices => MarketIndex
  | .marketSummary => MarketSummary
  | .news => News

/-- The slot field of the cache belonging to a category. -/
def Cache.slot (c : Cache) : (cat : CacheCategory) → Option (Slot (EntityOf cat))
  | .bluechips => c.bluechips
  | .cedears => c.cedears
  | .galpones => c.galpones
  | .bonds => c.bonds
  | .shortBonds => c.shortBonds
  | .corporateBonds => c.corporateBonds
  | .options => c.options
  | .futures => c.futures
  | .indices => c.indices
  | .marketSummary => c.marketSummary
  | .news => c.news

/-- Category-indexed view of the eleven cache getters. -/
def Cache.getCat (c : Cache) (cat : CacheCategory) (now : Int) :
    Option (List (EntityOf cat)) :=
  match cat with
  | .bluechips => c.GetBluechips now
  | .cedears => c.GetCedears now
  | .galpones => c.GetGalpones now
  | .bonds => c.GetBonds now
  | .shortBonds => c.GetShortTermBonds now
  | .corporateBonds => c.GetCorporateBonds now
  | .options => c.GetOptions now
  | .futures => c.GetFutures now
  | .indices => c.GetIndices now
  | .marketSummary => c.GetMarketSummary now
  | .news => c.GetNews now

/-- Category-indexed view of the eleven cache setters. -/
def Cache.setCat (c : Cache) (cat : CacheCategory) (data : List (EntityOf cat))
    (now : Int) : Cache :=
  match cat with
  | .bluechips => c.SetBluechips data now
  | .cedears => c.SetCedears data now
  | .galpones => c.SetGalpones data now
  | .bonds => c.SetBonds data now
  | .shortBonds => c.SetShortTermBonds data now
  | .corporateBonds => c.SetCorporateBonds data now
  | .options => c.SetOptions data now
  | .futures => c.SetFutures data now
  | .indices => c.SetIndices data now
  | .marketSummary => c.SetMarketSummary data now
  | .news => c.SetNews data now

/-- A category getter returns nothing when the category has no slot. -/
theorem Cache.getCat_of_slot_none (c : Cache) (cat : CacheCategory) (now : Int)
    (h : c.slot cat = none) : c.getCat cat now = none := by
  cases cat <;>
    simp_all [Cache.getCat, Cache.slot, Cache.GetBluechips, Cache.GetCedears,
      Cache.GetGalpones, Cache.GetBonds, Cache.GetShortTermBonds,
      Cache.GetCorporateBonds, Cache.GetOptions, Cache.GetFutures,
      Cache.GetIndices, Cache.GetMarketSummary, Cache.GetNews]

/-- A category getter returns the slot data exactly when the slot is
fresh. -/
theorem Cache.getCat_of_slot_some (c : Cache) (cat : CacheCategory) (now : Int)
    (s : Slot (EntityOf cat)) (h : c.slot cat = some s) :
    c.getCat cat now =
      if c.isFresh now s.timestamp then some s.data else none := by
  cases cat <;>
    simp_all [Cache.getCat, Cache.slot, Cache.GetBluechips, Cache.GetCedears,
      Cache.GetGalpones, Cache.GetBonds, Cache.GetShortTermBonds,
      Cache.GetCorporateBonds, Cache.GetOptions, Cache.GetFutures,
      Cache.GetIndices, Cache.GetMarketSummary, Cache.GetNews]

/-- Every category setter stamps its own slot with `(data, now)`. -/
theorem Cache.slot_setCat_self (c : Cache) (cat : CacheCategory)
    (data : List (EntityOf cat)) (now : Int) :
    (c.setCat cat data now).slot cat = some { data := data, timestamp := now } := by
  cases cat <;> rfl

/-- Setters do not change the cache duration. -/
theorem Cache.duration_setCat (c : Cache) (cat : CacheCategory)
    (data : List (EntityOf cat)) (now : Int) :
    (c.setCat cat data now).duration = c.duration := by
  cases cat <;> rfl

/-- After `Clear`, every category slot is gone. -/
theorem Cache.slot_clear (c : Cache) (cat : CacheCategory) :
    c.Clear.slot cat = none := by
  cases cat <;> rfl

/-!
## Errors (types.go)
-/

/-- Embedding of `openbymadata.BYMAError` (types.go).  `Underlying` is an
arbitrary wrapped Go `error`, carried opaquely as its message text; no
modelled code reads any of these fields. -/
structure BYMAError where
  code : String
  message : String
  statusCode : Int
  underlying : Option String
deriving DecidableEq, Inhabited

/-- A Go `error` value produced by the lookup layer: either an error
propagated from a collection fetcher, or the `fmt.Errorf("security %s not
found", symbol)` error built by `helpers.FindSecurityBySymbol` /
`helpers.FindSecurityInCollection`. -/
inductive GoErr where
  | fetch (e : BYMAError)
  | notFoundSecurity (symbol : GoStr)
deriving DecidableEq

/-!
## Lookup helpers (src/internal/helpers/securities.go)

Each Go loop `for i := range xs { if xs[i].Symbol == symbol { return
&xs[i], nil } }` returns the first element of `xs` whose `Symbol` equals
`symbol`, i.e. `xs.find? (fun x => x.symbol == symbol)`.
-/

/-- Embedding of `helpers.FindSecurityBySymbol`: scan blue chips, then
CEDEARs, then galpones; first exact symbol match wins; otherwise the
not-found error. -/
def FindSecurityBySymbol (symbol : GoStr)
    (bluechips cedears galpones : List Security) : Except GoErr Security :=
  match bluechips.find? (fun x => x.symbol == symbol) with
  | some x => .ok x
  | none =>
    match cedears.find? (fun x => x.symbol == symbol) with
    | some x => .ok x
    | none =>
      match galpones.find? (fun x => x.symbol == symbol) with
      | some x => .ok x
      | none => .error (.notFoundSecurity symbol)

/-- Embedding of `helpers.FindSecurityInCollection`. -/
def FindSecurityInCollection (symbol : GoStr) (securities : List Security) :
    Except GoErr Security :=
  match securities.find? (fun x => x.symbol == symbol) with
  | some x => .ok x
  | none => .error (.notFoundSecurity symbol)

/-- A Go `map[string]*Security`-style map, modelled extensionally. -/
def GoMap (α : Type) : Type := GoStr → Option α

/-- Go map assignment `m[k] = v`. -/
def mapSet (m : GoMap α) (k : GoStr) (v : α) : GoMap α :=
  fun k' => if k' == k then some v else m k'

/-- Go `make(map[string]*Security)`. -/
def emptyGoMap : GoMap α := fun _ => none

/-- The `for i := range xs { m[xs[i].Symbol] = &xs[i] }` loops of
`helpers.GetMultipleSecurities` that build one lookup map per collection
(later duplicates overwrite earlier ones, as in a Go map). -/
def buildSymbolMap (xs : List Security) : GoMap Security :=
  xs.foldl (fun m x => mapSet m x.symbol x) emptyGoMap

/-- Embedding of `helpers.GetMultipleSecurities`: build the three lookup
maps, then probe bluechips, cedears, galpones in order for each requested
symbol; symbols found nowhere are not added to `results`. -/
def GetMultipleSecurities (symbols : List GoStr)
    (bluechips cedears galpones : List Security) : GoMap Security :=
  let bluechipMap := buildSymbolMap bluechips
  let cedearMap := buildSymbolMap cedears
  let galponeMap := buildSymbolMap galpones
  symbols.foldl (fun results symbol =>
    match bluechipMap symbol with
    | some security => mapSet results symbol security
    | none =>
      match cedearMap symbol with
      | some security => mapSet results symbol security
      | none =>
        match galponeMap symbol with
        | some security => mapSet results symbol security
        | none => results) emptyGoMap

/-- Embedding of `helpers.toLower`: byte-wise ASCII lowering
(bytes `'A'..'Z'`, i.e. 65..90, get `'a' - 'A' = 32` added). -/
def toLower (s : GoStr) : GoStr :=
  s.map (fun b => if 65 ≤ b ∧ b ≤ 90 then b + 32 else b)

/-- Embedding of `helpers.simpleContains`: the index loop
`for i := 0; i <= len(s)-len(substr); i++` checks the byte window of
length `len(substr)` starting at `i` against `substr`. -/
def simpleContains (s substr : GoStr) : Bool :=
  if substr.length = 0 then true
  else if substr.length > s.length then false
  else (List.range (s.length - substr.length + 1)).any
    (fun i => (s.drop i).take substr.length == substr)

/-- Embedding of `helpers.stringContains`. -/
def stringContains (s substr : GoStr) : Bool :=
  simpleContains (toLower s) (toLower substr)

/-- Embedding of `helpers.contains`:
`len(s) >= len(substr) && (s == substr || len(substr) == 0 ||
stringContains(s, substr))`. -/
def contains (s substr : GoStr) : Bool :=
  decide (substr.length ≤ s.length) &&
    (s == substr || decide (substr.length = 0) || stringContains s substr)

/-- Embedding of `helpers.SearchSecurities`: append the matches of each of
the three collections in scan order. -/
def SearchSecurities (searchText : GoStr)
    (bluechips cedears galpones : List Security) : List Security :=
  bluechips.filter (fun security => contains security.symbol searchText) ++
    cedears.filter (fun security => contains security.symbol searchText) ++
    galpones.filter (fun security => contains security.symbol searchText)

/-!
## Cached collection accessors and composite lookups (client.go)

The public client holds `cache *cache.Cache` (`none` when caching is
disabled) and one underlying fetcher per category
(`c.Client.GetBluechips(ctx)` etc.).  A fetcher is modelled as a function
of its own invocation counter, so that "number of fetcher calls" is
observable; the counter is instrumentation, not program state.

The eleven `client.GetX` methods are textually identical up to the slot
they use; `clientGetCat` is that common method body, dispatching through
`Cache.getCat` / `Cache.setCat` (which merely select the corresponding
faithful per-category method).
-/

/-- Body of a cache-enabled `client.GetX` method: on a hit return the
cached slice; on a miss call the fetcher once; propagate its error without
touching the cache; on success store the data and return it. -/
def clientGetCat (cat : CacheCategory)
    (fetch : Nat → Except BYMAError (List (EntityOf cat))) (now : Int)
    (cache? : Option Cache) (calls : Nat) :
    Except BYMAError (List (EntityOf cat)) × Option Cache × Nat :=
  match cache? with
  | some cc =>
    match cc.getCat cat now with
    | some cached => (.ok cached, some cc, calls)
    | none =>
      match fetch calls with
      | .error e => (.error e, some cc, calls + 1)
      | .ok data => (.ok data, some (cc.setCat cat data now), calls + 1)
  | none =>
    match fetch calls with
    | .error e => (.error e, none, calls + 1)
    | .ok data => (.ok data, none, calls + 1)

/-- N sequential calls of one cached accessor, at the given instants.
Returns the final cache, the final fetcher-call counter, and the per-call
results. -/
def runCalls (cat : CacheCategory)
    (fetch : Nat → Except BYMAError (List (EntityOf cat))) :
    List Int → Option Cache → Nat →
      Option Cache × Nat × List (Except BYMAError (List (EntityOf cat)))
  | [], cache?, calls => (cache?, calls, [])
  | t :: rest, cache?, calls =>
    match clientGetCat cat fetch t cache? calls with
    | (res, cache2, calls2) =>
      match runCalls cat fetch rest cache2 calls2 with
      | (cache3, calls3, results) => (cache3, calls3, res :: results)

/-- The three securities-collection fetchers used by the composite
lookups, each instrumented with its own call counter. -/
structure Fetchers where
  bluechips : Nat → Except BYMAError (List Security)
  cedears : Nat → Except BYMAError (List Security)
  galpones : Nat → Except BYMAError (List Security)

/-- Client-side state threaded through composite lookups: the cache
(`none` when disabled) plus one instrumentation counter per securities
fetcher. -/
structure ClientState where
  cache : Option Cache
  bluechipsCalls : Nat
  cedearsCalls : Nat
  galponesCalls : Nat

/-- Embedding of the cache-enabled `client.GetBluechips`. -/
def clientGetBluechips (f : Fetchers) (now : Int) (st : ClientState) :
    Except BYMAError (List Security) × ClientState :=
  match clientGetCat .bluechips f.bluechips now st.cache st.bluechipsCalls with
  | (res, cache2, calls2) =>
    (res, { st with cache := cache2, bluechipsCalls := calls2 })

/-- Embedding of the cache-enabled `client.GetCedears`. -/
def clientGetCedears (f : Fetchers) (now : Int) (st : ClientState) :
    Except BYMAError (List Security) × ClientState :=
  match clientGetCat .cedears f.cedears now st.cache st.cedearsCalls with
  | (res, cache2, calls2) =>
    (res, { st with cache := cache2, cedearsCalls := calls2 })

/-- Embedding of the cache-enabled `client.GetGalpones`. -/
def clientGetGalpones (f : Fetchers) (now : Int) (st : ClientState) :
    Except BYMAError (List Security) × ClientState :=
  match clientGetCat .galpones f.galpones now st.cache st.galponesCalls with
  | (res, cache2, calls2) =>
    (res, { st with cache := cache2, galponesCalls := calls2 })

/-- Embedding of `client.GetSecurity`: fetch the three collections through
the cached accessors (early-returning any fetch error), then delegate to
`helpers.FindSecurityBySymbol`. -/
def clientGetSecurity (f : Fetchers) (now : Int) (symbol : GoStr)
    (st : ClientState) : Except GoErr Security × ClientState :=
  match clientGetBluechips f now st with
  | (.error e, st1) => (.error (.fetch e), st1)
  | (.ok bluechips, st1) =>
    match clientGetCedears f now st1 with
    | (.error e, st2) => (.error (.fetch e), st2)
    | (.ok cedears, st2) =>
      match clientGetGalpones f now st2 with
      | (.error e, st3) => (.error (.fetch e), st3)
      | (.ok galpones, st3) =>
        (FindSecurityBySymbol symbol bluechips cedears galpones, st3)

/-- Embedding of `client.GetMultipleSecurities`: pre-load the three
collections through the cached accessors (early-returning any fetch
error), then delegate to `helpers.GetMultipleSecurities` (which never
fails). -/
def clientGetMultipleSecurities (f : Fetchers) (now : Int)
    (symbols : List GoStr) (st : ClientState) :
    Except GoErr (GoMap Security) × ClientState :=
  match clientGetBluechips f now st with
  | (.error e, st1) => (.error (.fetch e), st1)
  | (.ok bluechips, st1) =>
    match clientGetCedears f now st1 with
    | (.error e, st2) => (.error (.fetch e), st2)
    | (.ok cedears, st2) =>
      match clientGetGalpones f now st2 with
      | (.error e, st3) => (.error (.fetch e), st3)
      | (.ok galpones, st3) =>
        (.ok (GetMultipleSecurities symbols bluechips cedears galpones), st3)

/-- Embedding of `client.SearchSecurities`: fetch the three collections
through the cached accessors (early-returning any fetch error), then
delegate to `helpers.SearchSecurities` (which never fails). -/
def clientSearchSecurities (f : Fetchers) (now : Int) (searchText : GoStr)
    (st : ClientState) : Except GoErr (List Security) × ClientState :=
  match clientGetBluechips f now st with
  | (.error e, st1) => (.error (.fetch e), st1)
  | (.ok bluechips, st1) =>
    match clientGetCedears f now st1 with
    | (.error e, st2) => (.error (.fetch e), st2)
    | (.ok cedears, st2) =>
      match clientGetGalpones f now st2 with
      | (.error e, st3) => (.error (.fetch e), st3)
      | (.ok galpones, st3) =>
        (.ok (SearchSecurities searchText bluechips cedears galpones), st3)

/-!
## Claim theorems
-/

/-- Claim C1: for every category, the cache get reports found (`isSome`)
iff a slot exists and the time elapsed since its timestamp is strictly
below the cache duration; after `set(category, d)` at time `T`, `get` at
time `t` returns `(d, true)` exactly when `t - T < duration` (hence at
every time in `[T, T+duration)`) and not-found at any time at or after
`T + duration`; the duration fixed by the constructor is 5 minutes. -/
theorem cache_get_freshness (cat : CacheCategory) (c : Cache) (now : Int) :
    ((c.getCat cat now).isSome = true ↔
      ∃ s, c.slot cat = some s ∧ now - s.timestamp < c.duration) ∧
    (∀ (d : List (EntityOf cat)) (T t : Int),
      (c.setCat cat d T).getCat cat t =
        if t - T < c.duration then some d else none) ∧
    Cache.New.duration = 5 * 60 * 1000000000 := by
  refine ⟨?_, ?_, rfl⟩
  · rcases hs : c.slot cat with _ | s
    · rw [Cache.getCat_of_slot_none c cat now hs]
      simp
    · rw [Cache.getCat_of_slot_some c cat now s hs]
      by_cases h : now - s.timestamp < c.duration <;>
        simp [Cache.isFresh, h]
  · intro d T t
    rw [Cache.getCat_of_slot_some _ cat t { data := d, timestamp := T }
      (Cache.slot_setCat_self c cat d T)]
    simp [Cache.isFresh, Cache.duration_setCat]

/-- Claim C8: after `Clear`, every bulk category reports not-found, and so
does every income-statement subkey; clearing the already-empty cache
produced by the constructor is a no-op. -/
theorem cache_clear_invalidates_all (c : Cache) (cat : CacheCategory)
    (ticker : GoStr) (now : Int) :
    c.Clear.getCat cat now = none ∧
    c.Clear.GetIncomeStatement ticker now = none ∧
    Cache.Clear Cache.New = Cache.New := by
  refine ⟨Cache.getCat_of_slot_none _ cat now (Cache.slot_clear c cat), ?_, rfl⟩
  simp [Cache.GetIncomeStatement, Cache.Clear, List.lookup]

/-- A cache holding exactly one slot, for the bonds category. -/
def bondsOnlyCache : Cache := Cache.New.SetBonds [default] 0

/-- Claim C4 counterexample: the bonds category has a slot (its get even
reports found), yet `GetInfo` reports nothing at all — the Go method only
ever inspects the bluechips, cedears and galpones slots, so the claim
fails for the other eight categories. -/
theorem cache_info_counterexample :
    (bondsOnlyCache.GetBonds 0).isSome = true ∧
    bondsOnlyCache.GetInfo 0 = [] := by
  constructor <;> rfl

/-- Claim C4 (amended): `GetInfo` reports only the three securities
categories.  For each of bluechips, cedears and galpones, the result has
an entry iff that slot exists, and the entry holds the slot's element
count, its age `now - capturedAt`, and a fresh flag computed by the same
rule as get (so the flag is `true` exactly when the category's get reports
found); no other key ever occurs in the result. -/
theorem cache_info_reports_securities_categories (c : Cache) (now : Int) :
    List.lookup "bluechips" (c.GetInfo now) =
      (c.bluechips.map fun s =>
        { count := s.data.length, timestamp := s.timestamp,
          age := now - s.timestamp, fresh := c.isFresh now s.timestamp }) ∧
    List.lookup "cedears" (c.GetInfo now) =
      (c.cedears.map fun s =>
        { count := s.data.length, timestamp := s.timestamp,
          age := now - s.timestamp, fresh := c.isFresh now s.timestamp }) ∧
    List.lookup "galpones" (c.GetInfo now) =
      (c.galpones.map fun s =>
        { count := s.data.length, timestamp := s.timestamp,
          age := now - s.timestamp, fresh := c.isFresh now s.timestamp }) ∧
    ((c.GetInfo now).all fun p =>
      p.1 == "bluechips" || p.1 == "cedears" || p.1 == "galpones") = true ∧
    (c.GetBluechips now).isSome =
      (((List.lookup "bluechips" (c.GetInfo now)).map
        CacheEntryInfo.fresh).getD false) ∧
    (c.GetCedears now).isSome =
      (((List.lookup "cedears" (c.GetInfo now)).map
        CacheEntryInfo.fresh).getD false) ∧
    (c.GetGalpones now).isSome =
      (((List.lookup "galpones" (c.GetInfo now)).map
        CacheEntryInfo.fresh).getD false) := by
  rcases hb : c.bluechips with _ | sb <;>
    rcases hc : c.cedears with _ | sc <;>
      rcases hg : c.galpones with _ | sg <;>
        simp [Cache.GetInfo, Cache.GetBluechips, Cache.GetCedears,
          Cache.GetGalpones, hb, hc, hg, List.lookup, apply_ite]

/-- Once a slot has been stamped at time `t0`, every further accessor call
at an instant within the freshness window hits the cache: no fetch, no
state change, cached data returned. -/
theorem runCalls_all_hits (cat : CacheCategory)
    (fetch : Nat → Except BYMAError (List (EntityOf cat)))
    (d : List (EntityOf cat)) (base : Cache) (t0 : Int) (calls : Nat) :
    ∀ rest : List Int, (∀ t ∈ rest, t - t0 < base.duration) →
      runCalls cat fetch rest (some (base.setCat cat d t0)) calls =
        (some (base.setCat cat d t0), calls, rest.map fun _ => .ok d) := by
  intro rest
  induction rest with
  | nil => intro _; rfl
  | cons t ts ih =>
    intro h
    have hget : (base.setCat cat d t0).getCat cat t = some d := by
      rw [Cache.getCat_of_slot_some _ cat t { data := d, timestamp := t0 }
        (Cache.slot_setCat_self base cat d t0)]
      have hfr : (base.setCat cat d t0).isFresh t t0 = true := by
        simp [Cache.isFresh, Cache.duration_setCat]
        exact h t (List.mem_cons_self t ts)
      simp [hfr]
    simp [runCalls, clientGetCat, hget,
      ih fun t' ht' => h t' (List.mem_cons_of_mem t ht')]

/-- Claim C2: the cached accessor body (common to every bulk category)
returns the cached sequence on a hit without invoking the fetcher; on a
miss it invokes the fetcher exactly once, stores the result via the
category's set and returns it; consequently a run of N sequential calls
within the freshness window, starting with no slot, invokes the fetcher
exactly once and yields the fetched data every time. -/
theorem accessor_cache_first (cat : CacheCategory)
    (fetch : Nat → Except BYMAError (List (EntityOf cat))) (now : Int)
    (cc : Cache) (calls : Nat) :
    (∀ cached, cc.getCat cat now = some cached →
      clientGetCat cat fetch now (some cc) calls = (.ok cached, some cc, calls)) ∧
    (∀ d, cc.getCat cat now = none → fetch calls = .ok d →
      clientGetCat cat fetch now (some cc) calls =
        (.ok d, some (cc.setCat cat d now), calls + 1)) ∧
    (∀ d t0 rest, cc.slot cat = none → (∀ n, fetch n = .ok d) →
      (∀ t ∈ rest, t - t0 < cc.duration) →
      (runCalls cat fetch (t0 :: rest) (some cc) calls).2.1 = calls + 1 ∧
      (runCalls cat fetch (t0 :: rest) (some cc) calls).2.2 =
        (t0 :: rest).map fun _ => .ok d) := by
  refine ⟨?_, ?_, ?_⟩
  · intro cached h
    simp [clientGetCat, h]
  · intro d hmiss hfetch
    simp [clientGetCat, hmiss, hfetch]
  · intro d t0 rest hslot hfetch htimes
    have h0 : cc.getCat cat t0 = none := Cache.getCat_of_slot_none cc cat t0 hslot
    have hrest := runCalls_all_hits cat fetch d cc t0 (calls + 1) rest htimes
    simp [runCalls, clientGetCat, h0, hfetch calls, hrest]

/-- Fetcher returning one fixed element on every call, for the C2
witness. -/
def c2Fetch : Nat → Except BYMAError (List Security) := fun _ => .ok [default]

/-- Witness for C2: three sequential calls at instants 0, 1 and 2 on a
fresh cache fetch exactly once and all return the fetched data. -/
theorem accessor_cache_first_witness :
    (runCalls .bluechips c2Fetch [0, 1, 2] (some Cache.New) 0).2.1 = 0 + 1 ∧
    (runCalls .bluechips c2Fetch [0, 1, 2] (some Cache.New) 0).2.2 =
      ([0, 1, 2] : List Int).map (fun _ => .ok [(default : Security)]) :=
  (accessor_cache_first .bluechips c2Fetch 0 Cache.New 0).2.2
    [(default : Security)] 0 [1, 2] rfl (fun _ => rfl) (by decide)

/-- Claim C3: on a miss, when the fetcher fails, the accessor returns
exactly the fetcher's error and the cache value is unchanged (only the
instrumentation counter moves); with no slot for the category, `GetInfo`
still omits it afterwards (shown for the bluechips category, the one
`GetInfo` could report). -/
theorem accessor_error_not_cached (cat : CacheCategory)
    (fetch : Nat → Except BYMAError (List (EntityOf cat))) (now : Int)
    (cc : Cache) (calls : Nat) (e : BYMAError)
    (hmiss : cc.getCat cat now = none) (hfetch : fetch calls = .error e) :
    clientGetCat cat fetch now (some cc) calls = (.error e, some cc, calls + 1) ∧
    (cc.bluechips = none →
      ∀ now2, List.lookup "bluechips" (cc.GetInfo now2) = none) := by
  constructor
  · simp [clientGetCat, hmiss, hfetch]
  · intro h now2
    rcases hc : cc.cedears with _ | sc <;>
      rcases hg : cc.galpones with _ | sg <;>
        simp [Cache.GetInfo, h, hc, hg, List.lookup]

/-- A fixed fetch failure, for the C3 witness. -/
def c3Err : BYMAError :=
  { code := "API_UNAVAILABLE", message := "BYMA API is currently unavailable",
    statusCode := 500, underlying := none }

/-- Fetcher failing on every call, for the C3 witness. -/
def c3Fetch : Nat → Except BYMAError (List Security) := fun _ => .error c3Err

/-- Witness for C3: on the empty cache, a failing bluechips fetch
propagates the error, leaves the cache untouched, and cache info still
omits the category. -/
theorem accessor_error_not_cached_witness :
    clientGetCat .bluechips c3Fetch 0 (some Cache.New) 0 =
      (.error c3Err, some Cache.New, 0 + 1) ∧
    List.lookup "bluechips" (Cache.New.GetInfo 5) = none :=
  ⟨(accessor_error_not_cached .bluechips c3Fetch 0 Cache.New 0 c3Err rfl rfl).1,
   (accessor_error_not_cached .bluechips c3Fetch 0 Cache.New 0 c3Err rfl rfl).2
     rfl 5⟩

/-- Claim C5: universal find returns the first exact symbol match of the
concatenation bluechips ++ cedears ++ galpones (fixed priority order);
whenever bluechips holds a match, the result is a bluechips record
matching the symbol; when no collection holds a match, the result is the
not-found error. -/
theorem find_security_priority (symbol : GoStr)
    (bluechips cedears galpones : List Security) :
    (FindSecurityBySymbol symbol bluechips cedears galpones =
      match (bluechips ++ cedears ++ galpones).find?
          (fun x => x.symbol == symbol) with
      | some x => Except.ok x
      | none => Except.error (.notFoundSecurity symbol)) ∧
    (∀ x ∈ bluechips, x.symbol = symbol →
      ∃ y ∈ bluechips, y.symbol = symbol ∧
        FindSecurityBySymbol symbol bluechips cedears galpones = .ok y) ∧
    ((∀ x ∈ bluechips ++ cedears ++ galpones, x.symbol ≠ symbol) →
      FindSecurityBySymbol symbol bluechips cedears galpones =
        .error (.notFoundSecurity symbol)) := by
  have hmain : FindSecurityBySymbol symbol bluechips cedears galpones =
      match (bluechips ++ cedears ++ galpones).find?
          (fun x => x.symbol == symbol) with
      | some x => Except.ok x
      | none => Except.error (.notFoundSecurity symbol) := by
    unfold FindSecurityBySymbol
    rcases h1 : bluechips.find? (fun x => x.symbol == symbol) with _ | x <;>
      rcases h2 : cedears.find? (fun x => x.symbol == symbol) with _ | y <;>
        rcases h3 : galpones.find? (fun x => x.symbol == symbol) with _ | z <;>
          simp [List.find?_append, h1, h2, h3]
  refine ⟨hmain, ?_, ?_⟩
  · intro x hx hsym
    rcases hy : bluechips.find? (fun t => t.symbol == symbol) with _ | y
    · rw [List.find?_eq_none] at hy
      exact absurd (by simpa using hsym) (by simpa using hy x hx)
    · refine ⟨y, List.mem_of_find?_eq_some hy,
        by simpa using List.find?_some hy, ?_⟩
      unfold FindSecurityBySymbol
      rw [hy]
  · intro hall
    have hnone : (bluechips ++ cedears ++ galpones).find?
        (fun t => t.symbol == symbol) = none := by
      rw [List.find?_eq_none]
      intro x hx
      simpa using hall x hx
    rw [hmain, hnone]

/-- A bluechips record with symbol "A" (bytes [65]), for the C5 witness. -/
def c5SecBlue : Security := { (default : Security) with symbol := [65] }

/-- A cedears record with the same symbol "A", for the C5 witness. -/
def c5SecCedear : Security :=
  { (default : Security) with symbol := [65], settlement := [67] }

/-- Witness for C5: with symbol "A" present in both bluechips and cedears,
the bluechips record wins; an absent symbol "B" yields the not-found
error. -/
theorem find_security_priority_witness :
    FindSecurityBySymbol [65] [c5SecBlue] [c5SecCedear] [] = .ok c5SecBlue ∧
    FindSecurityBySymbol [66] [c5SecBlue] [] [] =
      .error (.notFoundSecurity [66]) :=
  ⟨by rw [(find_security_priority [65] [c5SecBlue] [c5SecCedear] []).1]; rfl,
   (find_security_priority [66] [c5SecBlue] [] []).2.2 (by decide)⟩

/-- The per-symbol probe of the three lookup maps in priority order, as
performed by the body of the final loop of `GetMultipleSecurities`. -/
def probe3 (bluechips cedears galpones : List Security) (s : GoStr) :
    Option Security :=
  (buildSymbolMap bluechips s).or
    ((buildSymbolMap cedears s).or (buildSymbolMap galpones s))

/-- The step function of the final loop of `GetMultipleSecurities`. -/
def gmsStep (bluechips cedears galpones : List Security) :
    GoMap Security → GoStr → GoMap Security :=
  fun results symbol =>
    match buildSymbolMap bluechips symbol with
    | some security => mapSet results symbol security
    | none =>
      match buildSymbolMap cedears symbol with
      | some security => mapSet results symbol security
      | none =>
        match buildSymbolMap galpones symbol with
        | some security => mapSet results symbol security
        | none => results

/-- `GetMultipleSecurities` is the final loop folded over the requested
symbols. -/
theorem getMultipleSecurities_eq_foldl (symbols : List GoStr)
    (bluechips cedears galpones : List Security) :
    GetMultipleSecurities symbols bluechips cedears galpones =
      symbols.foldl (gmsStep bluechips cedears galpones) emptyGoMap := rfl

/-- One loop step either records the probe's hit under the requested
symbol or leaves the result map unchanged. -/
theorem gmsStep_eq_probe (bluechips cedears galpones : List Security)
    (results : GoMap Security) (symbol : GoStr) :
    gmsStep bluechips cedears galpones results symbol =
      match probe3 bluechips cedears galpones symbol with
      | some security => mapSet results symbol security
      | none => results := by
  unfold gmsStep probe3
  rcases buildSymbolMap bluechips symbol with _ | v1 <;>
    rcases buildSymbolMap cedears symbol with _ | v2 <;>
      rcases buildSymbolMap galpones symbol with _ | v3 <;> rfl

/-- Folding Go-map inserts keyed by the element symbols: the value found
under `k` is the last element with symbol `k`, i.e. the first match of the
reversed list, falling back to the initial map. -/
theorem foldl_mapSet_eq (k : GoStr) :
    ∀ (xs : List Security) (m : GoMap Security),
      (xs.foldl (fun m x => mapSet m x.symbol x) m) k =
        (xs.reverse.find? fun x => x.symbol == k).or (m k) := by
  intro xs
  induction xs with
  | nil => intro m; simp
  | cons x t ih =>
    intro m
    rw [List.foldl_cons, ih, List.reverse_cons, List.find?_append,
      Option.or_assoc]
    congr 1
    by_cases hk : x.symbol = k
    · simp [mapSet, List.find?, hk]
    · have hk1 : (x.symbol == k) = false := by simp [hk]
      have hk2 : (k == x.symbol) = false := by
        simp
        exact fun hkk => hk hkk.symm
      simp [mapSet, List.find?, hk1, hk2]

/-- The lookup map built from a collection finds exactly the elements of
the collection, keyed by symbol. -/
theorem buildSymbolMap_eq (xs : List Security) (k : GoStr) :
    buildSymbolMap xs k = xs.reverse.find? fun x => x.symbol == k := by
  rw [buildSymbolMap, foldl_mapSet_eq]
  simp [emptyGoMap]

/-- The probe of the three lookup maps hits iff some collection holds the
symbol. -/
theorem probe3_isSome (bluechips cedears galpones : List Security)
    (s : GoStr) :
    ((probe3 bluechips cedears galpones s).isSome = true ↔
      ∃ x, x ∈ bluechips ++ cedears ++ galpones ∧ x.symbol = s) := by
  unfold probe3
  rw [buildSymbolMap_eq, buildSymbolMap_eq, buildSymbolMap_eq]
  simp only [Option.isSome_or, Bool.or_eq_true, List.find?_isSome,
    List.mem_reverse, beq_iff_eq, List.mem_append]
  constructor
  · rintro (⟨x, hx, hp⟩ | ⟨x, hx, hp⟩ | ⟨x, hx, hp⟩)
    · exact ⟨x, Or.inl (Or.inl hx), hp⟩
    · exact ⟨x, Or.inl (Or.inr hx), hp⟩
    · exact ⟨x, Or.inr hx, hp⟩
  · rintro ⟨x, (hx | hx) | hx, hp⟩
    · exact Or.inl ⟨x, hx, hp⟩
    · exact Or.inr (Or.inl ⟨x, hx, hp⟩)
    · exact Or.inr (Or.inr ⟨x, hx, hp⟩)

/-- Characterisation of the final loop of `GetMultipleSecurities`:
the result map holds, under each requested symbol, the probe's hit, and
falls back to the accumulator for symbols never requested or never
found. -/
theorem gms_foldl (bluechips cedears galpones : List Security) :
    ∀ (symbols : List GoStr) (acc : GoMap Security) (s : GoStr),
      (symbols.foldl (gmsStep bluechips cedears galpones) acc) s =
        if s ∈ symbols ∧ (probe3 bluechips cedears galpones s).isSome = true
        then probe3 bluechips cedears galpones s
        else acc s := by
  intro symbols
  induction symbols with
  | nil => intro acc s; simp
  | cons sym t ih =>
    intro acc s
    rw [List.foldl_cons, ih, gmsStep_eq_probe]
    rcases hp : probe3 bluechips cedears galpones sym with _ | v
    · by_cases hs : s = sym
      · subst hs
        simp [hp]
      · simp [List.mem_cons, hs]
    · by_cases hs : s = sym
      · subst hs
        simp [hp, mapSet]
      · have : (s == sym) = false := by simp [hs]
        simp [List.mem_cons, hs, mapSet, this]

/-- Claim C6: batch find holds a key exactly for the requested symbols
that occur in at least one collection — absent symbols are silently
omitted, never an error — and the empty request yields the empty map. -/
theorem batch_find_omission (symbols : List GoStr)
    (bluechips cedears galpones : List Security) (s : GoStr) :
    ((GetMultipleSecurities symbols bluechips cedears galpones s).isSome = true ↔
      s ∈ symbols ∧ ∃ x, x ∈ bluechips ++ cedears ++ galpones ∧ x.symbol = s) ∧
    GetMultipleSecurities [] bluechips cedears galpones s = none := by
  constructor
  · rw [getMultipleSecurities_eq_foldl, gms_foldl]
    by_cases h : s ∈ symbols ∧
        (probe3 bluechips cedears galpones s).isSome = true
    · rw [if_pos h]
      simp only [h.2, true_iff]
      exact ⟨h.1, (probe3_isSome bluechips cedears galpones s).mp h.2⟩
    · rw [if_neg h]
      simp only [emptyGoMap, Option.isSome_none, Bool.false_eq_true, false_iff]
      intro ⟨hmem, hex⟩
      exact h ⟨hmem, (probe3_isSome bluechips cedears galpones s).mpr hex⟩
  · rw [getMultipleSecurities_eq_foldl]
    rfl

/-- First match equals last match when the scanned symbols are unique in
the collection. -/
theorem reverse_find?_nodup (k : GoStr) :
    ∀ xs : List Security, (xs.map Security.symbol).Nodup →
      xs.reverse.find? (fun x => x.symbol == k) =
        xs.find? (fun x => x.symbol == k) := by
  intro xs
  induction xs with
  | nil => intro _; rfl
  | cons x t ih =>
    intro h
    rw [List.map_cons, List.nodup_cons] at h
    rw [List.reverse_cons, List.find?_append]
    by_cases hx : x.symbol = k
    · have ht : t.find? (fun y => y.symbol == k) = none := by
        rw [List.find?_eq_none]
        intro y hy
        simp only [beq_iff_eq]
        intro hyk
        exact h.1 (by rw [hx, ← hyk]; exact List.mem_map_of_mem Security.symbol hy)
      have ht' : t.reverse.find? (fun y => y.symbol == k) = none := by
        rw [List.find?_eq_none] at ht ⊢
        intro y hy
        exact ht y (List.mem_reverse.mp hy)
      simp [ht', List.find?, hx]
    · have hx1 : (x.symbol == k) = false := by simp [hx]
      simp [List.find?, hx1, ih h.2]

/-- Claim C10: when no symbol repeats within a single collection, the
map-based batch probe for a single symbol agrees exactly with the linear
universal find — present iff find succeeds, and the same record. -/
theorem batch_refines_find (s : GoStr)
    (bluechips cedears galpones : List Security)
    (hb : (bluechips.map Security.symbol).Nodup)
    (hc : (cedears.map Security.symbol).Nodup)
    (hg : (galpones.map Security.symbol).Nodup) :
    GetMultipleSecurities [s] bluechips cedears galpones s =
      (FindSecurityBySymbol s bluechips cedears galpones).toOption := by
  have h1 : GetMultipleSecurities [s] bluechips cedears galpones s =
      probe3 bluechips cedears galpones s := by
    rw [getMultipleSecurities_eq_foldl, gms_foldl]
    rcases hp : probe3 bluechips cedears galpones s with _ | v <;>
      simp [hp, emptyGoMap]
  rw [h1]
  unfold probe3
  rw [buildSymbolMap_eq, buildSymbolMap_eq, buildSymbolMap_eq,
    reverse_find?_nodup s bluechips hb, reverse_find?_nodup s cedears hc,
    reverse_find?_nodup s galpones hg]
  unfold FindSecurityBySymbol
  rcases hb' : bluechips.find? (fun x => x.symbol == s) with _ | x <;>
    rcases hc' : cedears.find? (fun x => x.symbol == s) with _ | y <;>
      rcases hg' : galpones.find? (fun x => x.symbol == s) with _ | z <;>
        simp [Except.toOption, hb', hc', hg']

/-- A record with symbol "A", for the C10 witness. -/
def c10Sec : Security := { (default : Security) with symbol := [65] }

/-- Witness for C10: on duplicate-free fixtures, batch find of the single
symbol "A" agrees with universal find. -/
theorem batch_refines_find_witness :
    GetMultipleSecurities [[65]] [c10Sec] [] [] [65] =
      (FindSecurityBySymbol [65] [c10Sec] [] []).toOption :=
  batch_refines_find [65] [c10Sec] [] [] (by decide) (by decide) (by decide)

/-- The window scan of `simpleContains` succeeds exactly when the needle
occurs contiguously inside the haystack. -/
theorem simpleContains_iff (s sub : GoStr) :
    simpleContains s sub = true ↔ ∃ l r, s = l ++ sub ++ r := by
  unfold simpleContains
  by_cases h0 : sub.length = 0
  · rw [if_pos h0]
    have hsub : sub = [] := List.length_eq_zero.mp h0
    subst hsub
    simp only [true_iff]
    exact ⟨[], s, by simp⟩
  · rw [if_neg h0]
    by_cases h1 : sub.length > s.length
    · rw [if_pos h1]
      constructor
      · intro h
        exact absurd h (by simp)
      · rintro ⟨l, r, rfl⟩
        exfalso
        have hlen : (l ++ sub ++ r).length = l.length + (sub.length + r.length) := by
          simp
        omega
    · rw [if_neg h1, List.any_eq_true]
      constructor
      · rintro ⟨i, hi, hw⟩
        have hw' : (s.drop i).take sub.length = sub := by simpa using hw
        refine ⟨s.take i, (s.drop i).drop sub.length, ?_⟩
        calc s = s.take i ++ s.drop i := (List.take_append_drop i s).symm
          _ = s.take i ++
              ((s.drop i).take sub.length ++ (s.drop i).drop sub.length) := by
                rw [List.take_append_drop sub.length (s.drop i)]
          _ = s.take i ++ (sub ++ (s.drop i).drop sub.length) := by rw [hw']
          _ = s.take i ++ sub ++ (s.drop i).drop sub.length := by
                rw [List.append_assoc]
      · rintro ⟨l, r, rfl⟩
        refine ⟨l.length, ?_, ?_⟩
        · rw [List.mem_range]
          have hlen : (l ++ sub ++ r).length =
              l.length + (sub.length + r.length) := by simp
          omega
        · rw [List.append_assoc, List.drop_left, List.take_left]
          simp

/-- The case-insensitive `contains` of the helpers succeeds exactly when
the lowered needle occurs contiguously inside the lowered haystack. -/
theorem contains_iff (s sub : GoStr) :
    contains s sub = true ↔ ∃ l r, toLower s = l ++ toLower sub ++ r := by
  unfold contains stringContains
  simp only [Bool.and_eq_true, Bool.or_eq_true, decide_eq_true_eq,
    beq_iff_eq, simpleContains_iff]
  constructor
  · rintro ⟨hlen, hcase⟩
    rcases hcase with (rfl | hcase) | hcase
    · exact ⟨[], [], by simp⟩
    · have hsub : sub = [] := List.length_eq_zero.mp hcase
      subst hsub
      exact ⟨[], toLower s, by simp [toLower]⟩
    · exact hcase
  · rintro ⟨l, r, hdecomp⟩
    have hls : s.length = l.length + (sub.length + r.length) := by
      have hcl := congrArg List.length hdecomp
      simpa [toLower] using hcl
    exact ⟨by omega, Or.inr ⟨l, r, hdecomp⟩⟩

/-- Claim C9: substring search filters the concatenation of the three
collections in scan order, keeping exactly the securities whose symbol
contains the search text case-insensitively (the lowered text occurs in
the lowered symbol); the empty search text keeps every security of all
three collections. -/
theorem search_securities_substring (searchText : GoStr)
    (bluechips cedears galpones : List Security) :
    SearchSecurities searchText bluechips cedears galpones =
      (bluechips ++ cedears ++ galpones).filter
        (fun x => contains x.symbol searchText) ∧
    (∀ s : GoStr, contains s searchText = true ↔
      ∃ l r, toLower s = l ++ toLower searchText ++ r) ∧
    SearchSecurities [] bluechips cedears galpones =
      bluechips ++ cedears ++ galpones := by
  refine ⟨by simp [SearchSecurities], fun s => contains_iff s searchText, ?_⟩
  have hall : ∀ s : GoStr, contains s [] = true := by
    intro s
    simp [contains]
  simp [SearchSecurities, hall]

/-- The only error `FindSecurityBySymbol` itself produces is the
not-found error for the requested symbol. -/
theorem findSecurityBySymbol_error_shape (symbol : GoStr)
    (bluechips cedears galpones : List Security) (e : GoErr)
    (h : FindSecurityBySymbol symbol bluechips cedears galpones = .error e) :
    e = .notFoundSecurity symbol := by
  unfold FindSecurityBySymbol at h
  rcases h1 : bluechips.find? (fun x => x.symbol == symbol) with _ | x <;>
    rcases h2 : cedears.find? (fun x => x.symbol == symbol) with _ | y <;>
      rcases h3 : galpones.find? (fun x => x.symbol == symbol) with _ | z <;>
        simp_all

/-- Claim C7: whichever of the three collection fetches fails first,
`GetSecurity`, `GetMultipleSecurities` and `SearchSecurities` all fail
with exactly that fetch error and perform no lookup; when all three
succeed, the result is computed from all three collections and the only
error the lookup layer can add is the not-found error. -/
theorem composite_lookup_all_or_nothing (f : Fetchers) (now : Int)
    (symbol searchText : GoStr) (symbols : List GoStr) (st : ClientState) :
    (∀ e st1, clientGetBluechips f now st = (.error e, st1) →
      clientGetSecurity f now symbol st = (.error (.fetch e), st1) ∧
      clientGetMultipleSecurities f now symbols st = (.error (.fetch e), st1) ∧
      clientSearchSecurities f now searchText st = (.error (.fetch e), st1)) ∧
    (∀ b st1 e st2, clientGetBluechips f now st = (.ok b, st1) →
      clientGetCedears f now st1 = (.error e, st2) →
      clientGetSecurity f now symbol st = (.error (.fetch e), st2) ∧
      clientGetMultipleSecurities f now symbols st = (.error (.fetch e), st2) ∧
      clientSearchSecurities f now searchText st = (.error (.fetch e), st2)) ∧
    (∀ b st1 c st2 e st3, clientGetBluechips f now st = (.ok b, st1) →
      clientGetCedears f now st1 = (.ok c, st2) →
      clientGetGalpones f now st2 = (.error e, st3) →
      clientGetSecurity f now symbol st = (.error (.fetch e), st3) ∧
      clientGetMultipleSecurities f now symbols st = (.error (.fetch e), st3) ∧
      clientSearchSecurities f now searchText st = (.error (.fetch e), st3)) ∧
    (∀ b st1 c st2 g st3, clientGetBluechips f now st = (.ok b, st1) →
      clientGetCedears f now st1 = (.ok c, st2) →
      clientGetGalpones f now st2 = (.ok g, st3) →
      clientGetSecurity f now symbol st =
        (FindSecurityBySymbol symbol b c g, st3) ∧
      clientGetMultipleSecurities f now symbols st =
        (.ok (GetMultipleSecurities symbols b c g), st3) ∧
      clientSearchSecurities f now searchText st =
        (.ok (SearchSecurities searchText b c g), st3) ∧
      (∀ e, FindSecurityBySymbol symbol b c g = .error e →
        e = .notFoundSecurity symbol)) := by
  refine ⟨?_, ?_, ?_, ?_⟩
  · intro e st1 h1
    refine ⟨?_, ?_, ?_⟩ <;>
      simp [clientGetSecurity, clientGetMultipleSecurities,
        clientSearchSecurities, h1]
  · intro b st1 e st2 h1 h2
    refine ⟨?_, ?_, ?_⟩ <;>
      simp [clientGetSecurity, clientGetMultipleSecurities,
        clientSearchSecurities, h1, h2]
  · intro b st1 c st2 e st3 h1 h2 h3
    refine ⟨?_, ?_, ?_⟩ <;>
      simp [clientGetSecurity, clientGetMultipleSecurities,
        clientSearchSecurities, h1, h2, h3]
  · intro b st1 c st2 g st3 h1 h2 h3
    refine ⟨?_, ?_, ?_, ?_⟩
    · simp [clientGetSecurity, h1, h2, h3]
    · simp [clientGetMultipleSecurities, h1, h2, h3]
    · simp [clientSearchSecurities, h1, h2, h3]
    · exact fun e he => findSecurityBySymbol_error_shape symbol b c g e he

/-- A fixed fetch failure, for the C7 witness. -/
def c7Err : BYMAError :=
  { code := "TIMEOUT", message := "Request timeout",
    statusCode := 408, underlying := none }

/-- Fetchers whose cedears fetch always fails, for the C7 witness. -/
def c7Fetchers : Fetchers :=
  { bluechips := fun _ => .ok []
    cedears := fun _ => .error c7Err
    galpones := fun _ => .ok [] }

/-- Client state with a fresh enabled cache, for the C7 witness. -/
def c7State : ClientState :=
  { cache := some Cache.New, bluechipsCalls := 0, cedearsCalls := 0,
    galponesCalls := 0 }

/-- Witness for C7: a failing cedears fetch makes all three composite
lookups fail with exactly that fetch error. -/
theorem composite_lookup_all_or_nothing_witness :
    clientGetSecurity c7Fetchers 0 [65] c7State =
      (.error (.fetch c7Err),
        { cache := some (Cache.New.SetBluechips [] 0), bluechipsCalls := 1,
          cedearsCalls := 1, galponesCalls := 0 }) ∧
    clientGetMultipleSecurities c7Fetchers 0 [[65]] c7State =
      (.error (.fetch c7Err),
        { cache := some (Cache.New.SetBluechips [] 0), bluechipsCalls := 1,
          cedearsCalls := 1, galponesCalls := 0 }) ∧
    clientSearchSecurities c7Fetchers 0 [65] c7State =
      (.error (.fetch c7Err),
        { cache := some (Cache.New.SetBluechips [] 0), bluechipsCalls := 1,
          cedearsCalls := 1, galponesCalls := 0 }) :=
  (composite_lookup_all_or_nothing c7Fetchers 0 [65] [65] [[65]] c7State).2.1
    [] { cache := some (Cache.New.SetBluechips [] 0), bluechipsCalls := 1,
         cedearsCalls := 0, galponesCalls := 0 }
    c7Err
    { cache := some (Cache.New.SetBluechips [] 0), bluechipsCalls := 1,
      cedearsCalls := 1, galponesCalls := 0 }
    rfl rfl

end OpenBYMA
